import Mathlib

/-!
Verification development for the body/hand tracking, smoothing, collision and
session-recording pipeline of the `isaac` repository.  The JavaScript pipeline
is shallowly embedded: numeric values are modelled as rationals, per-frame
imperative loops as list folds, and the DataView-based binary serializer as a
pure function producing a list of typed write cells together with the running
byte offset.
-/

namespace Isaac

/-! ## Coordinate mapper (`setupCanvasSizing` and keypoint mapping) -/

/-- The render state held in `renderStateRef`: uniform scale plus draw offsets,
together with the source video dimensions. -/
structure RenderState where
  scale : ℚ
  drawX : ℚ
  drawY : ℚ
  videoW : ℚ
  videoH : ℚ
deriving Repr, DecidableEq

/-- Initial value of `renderStateRef`: identity mapping with unknown video size. -/
def initialRenderState : RenderState := ⟨1, 0, 0, 0, 0⟩

/-- Embedding of `setupCanvasSizing`: cover-fit scale and centering offsets.
The source computes the scale and offsets unconditionally, with no guard on
degenerate (zero) dimensions. -/
def setupCanvasSizing (videoW videoH cssW cssH : ℚ) : RenderState :=
  let scale := max (cssW / videoW) (cssH / videoH)
  let drawW := videoW * scale
  let drawH := videoH * scale
  let drawX := (cssW - drawW) / 2
  let drawY := (cssH - drawH) / 2
  ⟨scale, drawX, drawY, videoW, videoH⟩

/-- Embedding of the per-keypoint mapping `kp.x * scale + drawX`,
`kp.y * scale + drawY` used in `detectPose`. -/
def mapPoint (rs : RenderState) (x y : ℚ) : ℚ × ℚ :=
  (x * rs.scale + rs.drawX, y * rs.scale + rs.drawY)

/-- Claim C2 (counterexample): with source 100 by 1 and viewport 100 by 100
(all positive), the mapped image of the source corner (0,0) has x-coordinate
-4950, which does not lie within the band [-1/2, 100 + 1/2] required by the
claim. -/
theorem mapper_corner_escapes_box :
    (0 : ℚ) < 100 ∧ (0 : ℚ) < 1 ∧
    (mapPoint (setupCanvasSizing 100 1 100 100) 0 0).1 = -4950 ∧
    ¬ (-(1/2) : ℚ) ≤ (mapPoint (setupCanvasSizing 100 1 100 100) 0 0).1 := by
  refine ⟨by norm_num, by norm_num, ?_, ?_⟩ <;>
    norm_num [mapPoint, setupCanvasSizing]

/-- Claim C2 (amended): for positive source and viewport dimensions the mapper
computes the cover-fit scale `max (dw/sw) (dh/sh)` and centering offsets, maps
a source point affinely, and fully covers the destination rectangle:
`dw ≤ scale*sw` and `dh ≤ scale*sh`; the mapped images of (0,0) and (sw,sh)
bracket the destination rectangle (the first lies at or before the origin
componentwise, the second at or beyond (dw,dh) componentwise) rather than
lying inside a half-pixel band around it. -/
theorem mapper_cover_amended (sw sh dw dh : ℚ)
    (hsw : 0 < sw) (hsh : 0 < sh) (hdw : 0 < dw) (hdh : 0 < dh) :
    (setupCanvasSizing sw sh dw dh).scale = max (dw / sw) (dh / sh) ∧
    (setupCanvasSizing sw sh dw dh).drawX
      = (dw - sw * (setupCanvasSizing sw sh dw dh).scale) / 2 ∧
    (setupCanvasSizing sw sh dw dh).drawY
      = (dh - sh * (setupCanvasSizing sw sh dw dh).scale) / 2 ∧
    (∀ x y : ℚ, mapPoint (setupCanvasSizing sw sh dw dh) x y
      = (x * (setupCanvasSizing sw sh dw dh).scale + (setupCanvasSizing sw sh dw dh).drawX,
         y * (setupCanvasSizing sw sh dw dh).scale + (setupCanvasSizing sw sh dw dh).drawY)) ∧
    dw ≤ (setupCanvasSizing sw sh dw dh).scale * sw ∧
    dh ≤ (setupCanvasSizing sw sh dw dh).scale * sh ∧
    (mapPoint (setupCanvasSizing sw sh dw dh) 0 0).1 ≤ 0 ∧
    (mapPoint (setupCanvasSizing sw sh dw dh) 0 0).2 ≤ 0 ∧
    dw ≤ (mapPoint (setupCanvasSizing sw sh dw dh) sw sh).1 ∧
    dh ≤ (mapPoint (setupCanvasSizing sw sh dw dh) sw sh).2 := by
  have hcovW : dw ≤ (max (dw / sw) (dh / sh)) * sw := by
    have h1 : dw / sw ≤ max (dw / sw) (dh / sh) := le_max_left _ _
    calc dw = (dw / sw) * sw := by field_simp
    _ ≤ (max (dw / sw) (dh / sh)) * sw := by
        exact mul_le_mul_of_nonneg_right h1 (le_of_lt hsw)
  have hcovH : dh ≤ (max (dw / sw) (dh / sh)) * sh := by
    have h1 : dh / sh ≤ max (dw / sw) (dh / sh) := le_max_right _ _
    calc dh = (dh / sh) * sh := by field_simp
    _ ≤ (max (dw / sw) (dh / sh)) * sh := by
        exact mul_le_mul_of_nonneg_right h1 (le_of_lt hsh)
  refine ⟨rfl, ?_, ?_, fun x y => rfl, ?_, ?_, ?_, ?_, ?_, ?_⟩
  · simp only [setupCanvasSizing]
  · simp only [setupCanvasSizing]
  · simpa [setupCanvasSizing, mul_comm] using hcovW
  · simpa [setupCanvasSizing, mul_comm] using hcovH
  · simp only [mapPoint, setupCanvasSizing]
    nlinarith [hcovW]
  · simp only [mapPoint, setupCanvasSizing]
    nlinarith [hcovH]
  · simp only [mapPoint, setupCanvasSizing]
    nlinarith [hcovW]
  · simp only [mapPoint, setupCanvasSizing]
    nlinarith [hcovH]

/-- Witness for `mapper_cover_amended` at source 640 by 480, viewport 1920 by 1080. -/
theorem mapper_cover_amended_witness :
    (0 : ℚ) < 640 ∧ (0 : ℚ) < 480 ∧ (0 : ℚ) < 1920 ∧ (0 : ℚ) < 1080 ∧
    ((setupCanvasSizing 640 480 1920 1080).scale = max (1920 / 640) (1080 / 480) ∧
     (setupCanvasSizing 640 480 1920 1080).drawX
       = (1920 - 640 * (setupCanvasSizing 640 480 1920 1080).scale) / 2 ∧
     (setupCanvasSizing 640 480 1920 1080).drawY
       = (1080 - 480 * (setupCanvasSizing 640 480 1920 1080).scale) / 2 ∧
     (∀ x y : ℚ, mapPoint (setupCanvasSizing 640 480 1920 1080) x y
       = (x * (setupCanvasSizing 640 480 1920 1080).scale + (setupCanvasSizing 640 480 1920 1080).drawX,
          y * (setupCanvasSizing 640 480 1920 1080).scale + (setupCanvasSizing 640 480 1920 1080).drawY)) ∧
     (1920 : ℚ) ≤ (setupCanvasSizing 640 480 1920 1080).scale * 640 ∧
     (1080 : ℚ) ≤ (setupCanvasSizing 640 480 1920 1080).scale * 480 ∧
     (mapPoint (setupCanvasSizing 640 480 1920 1080) 0 0).1 ≤ 0 ∧
     (mapPoint (setupCanvasSizing 640 480 1920 1080) 0 0).2 ≤ 0 ∧
     (1920 : ℚ) ≤ (mapPoint (setupCanvasSizing 640 480 1920 1080) 640 480).1 ∧
     (1080 : ℚ) ≤ (mapPoint (setupCanvasSizing 640 480 1920 1080) 640 480).2) :=
  ⟨by norm_num, by norm_num, by norm_num, by norm_num,
   mapper_cover_amended 640 480 1920 1080 (by norm_num) (by norm_num) (by norm_num) (by norm_num)⟩

/-- Claim C7 (counterexample): with positive source dimensions 320 by 240 and a
degenerate zero-size destination viewport, `setupCanvasSizing` computes scale 0,
not the identity scale 1 the claim requires. -/
theorem degenerate_viewport_scale_zero :
    (setupCanvasSizing 320 240 0 0).scale = 0 ∧ ((0 : ℚ) ≠ 1) := by
  constructor
  · norm_num [setupCanvasSizing]
  · norm_num

/-- Claim C7 (amended): the coordinate mapper has no guard for degenerate
dimensions and does not short-circuit to the identity mapping; it applies the
same unguarded cover-fit formula on every input.  With positive source
dimensions and a zero-size destination viewport the computed state is
`scale = 0` with zero offsets (not `scale = 1`); the identity mapping
(scale 1, offsets 0) appears only as the initial render state set before the
first `setupCanvasSizing` call. -/
theorem mapper_no_degenerate_guard (sw sh : ℚ) (hsw : 0 < sw) (hsh : 0 < sh) :
    setupCanvasSizing sw sh 0 0 = ⟨0, 0, 0, sw, sh⟩ ∧
    (setupCanvasSizing sw sh 0 0).scale ≠ initialRenderState.scale ∧
    initialRenderState.scale = 1 ∧ initialRenderState.drawX = 0 ∧
    initialRenderState.drawY = 0 := by
  have h0 : setupCanvasSizing sw sh 0 0 = ⟨0, 0, 0, sw, sh⟩ := by
    simp [setupCanvasSizing]
  refine ⟨h0, ?_, rfl, rfl, rfl⟩
  rw [h0]
  norm_num [initialRenderState]

/-- Witness for `mapper_no_degenerate_guard` at source 320 by 240. -/
theorem mapper_no_degenerate_guard_witness :
    (0 : ℚ) < 320 ∧ (0 : ℚ) < 240 ∧
    (setupCanvasSizing 320 240 0 0 = ⟨0, 0, 0, 320, 240⟩ ∧
     (setupCanvasSizing 320 240 0 0).scale ≠ initialRenderState.scale ∧
     initialRenderState.scale = 1 ∧ initialRenderState.drawX = 0 ∧
     initialRenderState.drawY = 0) :=
  ⟨by norm_num, by norm_num,
   mapper_no_degenerate_guard 320 240 (by norm_num) (by norm_num)⟩

/-! ## Landmark smoother (`getBodyPartPosition`, `updateBodyPartTracking`) -/

/-- A named pose keypoint as returned (already mapped to display space) by the
pose backend. -/
structure Keypoint where
  name : String
  x : ℚ
  y : ℚ
  score : ℚ
deriving Repr, DecidableEq

/-- A smoothed position entry stored in `smoothedKeypointsRef`. -/
structure SmoothPoint where
  x : ℚ
  y : ℚ
  score : ℚ
deriving Repr, DecidableEq

/-- Embedding of `getBodyPartPosition`: the first keypoint with the requested
name, kept only when its score is strictly above 0.3. -/
def getBodyPartPosition (keypoints : List Keypoint) (bodyPartName : String) :
    Option SmoothPoint :=
  match keypoints.find? (fun kp => kp.name == bodyPartName) with
  | some kp => if kp.score > 3/10 then some ⟨kp.x, kp.y, kp.score⟩ else none
  | none => none

/-- The fixed smoothing factor of `updateBodyPartTracking`. -/
def smoothingFactor : ℚ := 7/10

/-- The static body-part radius table of `updateBodyPartTracking`, in source
declaration order. -/
def collisionAreas : List (String × ℚ) :=
  [("left_wrist", 40), ("right_wrist", 40),
   ("left_ankle", 35), ("right_ankle", 35),
   ("nose", 30),
   ("left_elbow", 25), ("right_elbow", 25),
   ("left_knee", 25), ("right_knee", 25),
   ("left_shoulder", 20), ("right_shoulder", 20),
   ("left_hip", 20), ("right_hip", 20)]

/-- A tracked zone entry of `newTrackedParts`. -/
structure TrackedZone where
  x : ℚ
  y : ℚ
  score : ℚ
  radius : ℚ
  lastUpdate : ℚ
deriving Repr, DecidableEq

/-- The mutable smoothing state `smoothedKeypointsRef.current`. -/
abbrev SmoothState := String → Option SmoothPoint

/-- One iteration of the `Object.keys(collisionAreas).forEach` loop body of
`updateBodyPartTracking`. -/
def trackStep (keypoints : List Keypoint) (now : ℚ)
    (acc : SmoothState × List (String × TrackedZone)) (entry : String × ℚ) :
    SmoothState × List (String × TrackedZone) :=
  match getBodyPartPosition keypoints entry.1 with
  | some raw =>
    let prev := (acc.1 entry.1).getD raw
    let smoothed : SmoothPoint :=
      ⟨prev.x * smoothingFactor + raw.x * (1 - smoothingFactor),
       prev.y * smoothingFactor + raw.y * (1 - smoothingFactor),
       raw.score⟩
    (fun n => if n = entry.1 then some smoothed else acc.1 n,
     acc.2 ++ [(entry.1, ⟨smoothed.x, smoothed.y, smoothed.score, entry.2, now⟩)])
  | none => acc

/-- Embedding of `updateBodyPartTracking`: folds the loop body over the radius
table, returning the updated smoothing state and the tracked zones of the
current frame. -/
def updateBodyPartTracking (st : SmoothState) (keypoints : List Keypoint)
    (now : ℚ) : SmoothState × List (String × TrackedZone) :=
  collisionAreas.foldl (trackStep keypoints now) (st, [])

lemma trackStep_state_ne (keypoints : List Keypoint) (now : ℚ)
    (acc : SmoothState × List (String × TrackedZone)) (entry : String × ℚ)
    (n : String) (h : n ≠ entry.1) :
    (trackStep keypoints now acc entry).1 n = acc.1 n := by
  rcases hg : getBodyPartPosition keypoints entry.1 with _ | raw <;>
    simp [trackStep, hg, h]

lemma foldl_state_of_none (keypoints : List Keypoint) (now : ℚ) (bp : String)
    (hnone : getBodyPartPosition keypoints bp = none) :
    ∀ (table : List (String × ℚ)) (acc : SmoothState × List (String × TrackedZone)),
      (table.foldl (trackStep keypoints now) acc).1 bp = acc.1 bp := by
  intro table
  induction table with
  | nil => intro acc; rfl
  | cons e rest ih =>
    intro acc
    rw [List.foldl_cons, ih]
    by_cases he : bp = e.1
    · have : getBodyPartPosition keypoints e.1 = none := he ▸ hnone
      simp [trackStep, this]
    · exact trackStep_state_ne _ _ _ _ _ he

lemma foldl_state_not_mem (keypoints : List Keypoint) (now : ℚ) :
    ∀ (table : List (String × ℚ)) (acc : SmoothState × List (String × TrackedZone))
      (bp : String), bp ∉ table.map Prod.fst →
      (table.foldl (trackStep keypoints now) acc).1 bp = acc.1 bp := by
  intro table
  induction table with
  | nil => intro acc bp _; rfl
  | cons e rest ih =>
    intro acc bp h
    simp only [List.map_cons, List.mem_cons, not_or] at h
    rw [List.foldl_cons, ih _ _ h.2]
    exact trackStep_state_ne _ _ _ _ _ h.1

lemma foldl_zones_key (keypoints : List Keypoint) (now : ℚ) :
    ∀ (table : List (String × ℚ)) (acc : SmoothState × List (String × TrackedZone))
      (bp : String) (z : TrackedZone),
      (bp, z) ∈ (table.foldl (trackStep keypoints now) acc).2 →
      (bp, z) ∈ acc.2 ∨ ∃ raw, getBodyPartPosition keypoints bp = some raw := by
  intro table
  induction table with
  | nil => intro acc bp z h; exact Or.inl h
  | cons e rest ih =>
    intro acc bp z h
    rw [List.foldl_cons] at h
    rcases ih _ bp z h with h1 | h2
    · rcases hg : getBodyPartPosition keypoints e.1 with _ | raw
      · rw [trackStep, hg] at h1; exact Or.inl h1
      · rw [trackStep, hg] at h1
        simp only [List.mem_append, List.mem_singleton] at h1
        rcases h1 with h1 | h1
        · exact Or.inl h1
        · have : bp = e.1 := congrArg Prod.fst h1
          exact Or.inr ⟨raw, this ▸ hg⟩
    · exact Or.inr h2

lemma foldl_zones_mono (keypoints : List Keypoint) (now : ℚ) :
    ∀ (table : List (String × ℚ)) (acc : SmoothState × List (String × TrackedZone))
      (p : String × TrackedZone), p ∈ acc.2 →
      p ∈ (table.foldl (trackStep keypoints now) acc).2 := by
  intro table
  induction table with
  | nil => intro acc p h; exact h
  | cons e rest ih =>
    intro acc p h
    rw [List.foldl_cons]
    refine ih _ _ ?_
    rcases hg : getBodyPartPosition keypoints e.1 with _ | raw
    · rw [trackStep, hg]; exact h
    · rw [trackStep, hg]; exact List.mem_append_left _ h

lemma mem_split_nodup_keys {l : List (String × ℚ)}
    (hn : (l.map Prod.fst).Nodup) {bp : String} {r : ℚ} (hm : (bp, r) ∈ l) :
    ∃ s t, l = s ++ (bp, r) :: t ∧
      bp ∉ s.map Prod.fst ∧ bp ∉ t.map Prod.fst := by
  obtain ⟨s, t, rfl⟩ := List.append_of_mem hm
  rw [List.map_append, List.map_cons] at hn
  have hd := List.disjoint_of_nodup_append hn
  have ht := (List.nodup_cons.mp (List.Nodup.of_append_right hn)).1
  refine ⟨s, t, rfl, ?_, ht⟩
  intro hs
  exact hd hs (List.mem_cons_self _ _)

lemma collisionAreas_keys_nodup : (collisionAreas.map Prod.fst).Nodup := by
  decide

/-- Claim C3: for every body part of the radius table with a confident
(score strictly above 0.3) observation, the updated smoothing state is
`prev * 0.7 + raw * 0.3` elementwise on x and y, the stored score is the
latest raw score unsmoothed, and when no prior smoothed value exists the raw
value seeds the state, so the first observation is stored and output
unsmoothed. -/
theorem smoother_ema_update (st : SmoothState) (keypoints : List Keypoint)
    (now : ℚ) (bp : String) (r : ℚ) (raw : SmoothPoint)
    (hmem : (bp, r) ∈ collisionAreas)
    (hraw : getBodyPartPosition keypoints bp = some raw) :
    (updateBodyPartTracking st keypoints now).1 bp
      = some ⟨((st bp).getD raw).x * (7/10) + raw.x * (3/10),
              ((st bp).getD raw).y * (7/10) + raw.y * (3/10),
              raw.score⟩ ∧
    (st bp = none →
      (updateBodyPartTracking st keypoints now).1 bp = some raw ∧
      (bp, (⟨raw.x, raw.y, raw.score, r, now⟩ : TrackedZone))
        ∈ (updateBodyPartTracking st keypoints now).2) := by
  obtain ⟨s, t, hsplit, hns, hnt⟩ :=
    mem_split_nodup_keys collisionAreas_keys_nodup hmem
  have hmid : ((s.foldl (trackStep keypoints now) (st, [])).1) bp = st bp :=
    foldl_state_not_mem keypoints now s (st, []) bp hns
  set mid := s.foldl (trackStep keypoints now)
      ((st, []) : SmoothState × List (String × TrackedZone)) with hmiddef
  have hstep : (trackStep keypoints now mid (bp, r)).1 bp
      = some ⟨((st bp).getD raw).x * smoothingFactor
                + raw.x * (1 - smoothingFactor),
              ((st bp).getD raw).y * smoothingFactor
                + raw.y * (1 - smoothingFactor),
              raw.score⟩ := by
    rw [trackStep, hraw]
    simp [hmid]
  have hfinal : (updateBodyPartTracking st keypoints now).1 bp
      = (trackStep keypoints now mid (bp, r)).1 bp := by
    rw [updateBodyPartTracking, hsplit, List.foldl_append, List.foldl_cons]
    exact foldl_state_not_mem keypoints now t _ bp hnt
  have hval : (updateBodyPartTracking st keypoints now).1 bp
      = some ⟨((st bp).getD raw).x * (7/10) + raw.x * (3/10),
              ((st bp).getD raw).y * (7/10) + raw.y * (3/10),
              raw.score⟩ := by
    rw [hfinal, hstep]
    norm_num [smoothingFactor]
  refine ⟨hval, fun hnoprior => ?_⟩
  have hseed : (⟨raw.x * (7/10) + raw.x * (3/10),
                 raw.y * (7/10) + raw.y * (3/10), raw.score⟩ : SmoothPoint)
      = raw := by
    have hx : raw.x * (7/10) + raw.x * (3/10) = raw.x := by ring
    have hy : raw.y * (7/10) + raw.y * (3/10) = raw.y := by ring
    calc (⟨raw.x * (7/10) + raw.x * (3/10),
           raw.y * (7/10) + raw.y * (3/10), raw.score⟩ : SmoothPoint)
        = ⟨raw.x, raw.y, raw.score⟩ := by rw [hx, hy]
    _ = raw := rfl
  constructor
  · rw [hval, hnoprior]
    simpa using congrArg some hseed
  · have hzone : (bp, (⟨raw.x, raw.y, raw.score, r, now⟩ : TrackedZone))
        ∈ (trackStep keypoints now mid (bp, r)).2 := by
      rw [trackStep, hraw]
      simp only [List.mem_append, List.mem_singleton]
      right
      have hprev : (mid.1 bp).getD raw = raw := by rw [hmid, hnoprior]; rfl
      rw [hprev]
      have hx : raw.x * smoothingFactor + raw.x * (1 - smoothingFactor)
          = raw.x := by ring
      have hy : raw.y * smoothingFactor + raw.y * (1 - smoothingFactor)
          = raw.y := by ring
      simp [hx, hy]
    rw [updateBodyPartTracking, hsplit, List.foldl_append, List.foldl_cons]
    exact foldl_zones_mono keypoints now t _ _ hzone

/-- Witness for `smoother_ema_update`: first confident observation of
`left_wrist` on an empty smoothing state is stored and output as is. -/
theorem smoother_ema_update_witness :
    (("left_wrist", (40 : ℚ)) ∈ collisionAreas) ∧
    (getBodyPartPosition [⟨"left_wrist", 100, 200, 9/10⟩] "left_wrist"
      = some ⟨100, 200, 9/10⟩) ∧
    ((updateBodyPartTracking (fun _ => none) [⟨"left_wrist", 100, 200, 9/10⟩] 5).1 "left_wrist"
      = some ⟨(((fun (_ : String) => (none : Option SmoothPoint)) "left_wrist").getD
                 ⟨100, 200, 9/10⟩).x * (7/10) + (100 : ℚ) * (3/10),
              (((fun (_ : String) => (none : Option SmoothPoint)) "left_wrist").getD
                 ⟨100, 200, 9/10⟩).y * (7/10) + (200 : ℚ) * (3/10),
              9/10⟩ ∧
     ((fun (_ : String) => (none : Option SmoothPoint)) "left_wrist" = none →
      (updateBodyPartTracking (fun _ => none) [⟨"left_wrist", 100, 200, 9/10⟩] 5).1 "left_wrist"
        = some ⟨100, 200, 9/10⟩ ∧
      ("left_wrist", (⟨100, 200, 9/10, 40, 5⟩ : TrackedZone))
        ∈ (updateBodyPartTracking (fun _ => none) [⟨"left_wrist", 100, 200, 9/10⟩] 5).2)) :=
  ⟨by decide, by norm_num [getBodyPartPosition, List.find?],
   smoother_ema_update (fun _ => none) [⟨"left_wrist", 100, 200, 9/10⟩] 5
     "left_wrist" 40 ⟨100, 200, 9/10⟩ (by decide)
     (by norm_num [getBodyPartPosition, List.find?])⟩

/-- Claim C6: a body part whose observation is missing or not strictly above
score 0.3 is omitted from the tracked-zone output of the frame, and its stored
smoothed state is left exactly unchanged. -/
theorem lowconf_part_dropped (st : SmoothState) (keypoints : List Keypoint)
    (now : ℚ) (bp : String)
    (hnone : getBodyPartPosition keypoints bp = none) :
    (updateBodyPartTracking st keypoints now).1 bp = st bp ∧
    ∀ z : TrackedZone, (bp, z) ∉ (updateBodyPartTracking st keypoints now).2 := by
  constructor
  · exact foldl_state_of_none keypoints now bp hnone collisionAreas (st, [])
  · intro z hz
    rcases foldl_zones_key keypoints now collisionAreas (st, []) bp z hz with h | ⟨raw, h⟩
    · simp at h
    · rw [hnone] at h; cases h

/-- Witness for `lowconf_part_dropped`: a low-confidence `left_wrist`
observation (score 0.1) leaves the stored smoothed value untouched and emits
no zone for it. -/
theorem lowconf_part_dropped_witness :
    (getBodyPartPosition [⟨"left_wrist", 5, 5, 1/10⟩] "left_wrist" = none) ∧
    ((updateBodyPartTracking
        (fun n => if n = "left_wrist" then some ⟨3, 4, 9/10⟩ else none)
        [⟨"left_wrist", 5, 5, 1/10⟩] 7).1 "left_wrist"
      = (fun n => if n = "left_wrist" then some (⟨3, 4, 9/10⟩ : SmoothPoint) else none) "left_wrist" ∧
     ∀ z : TrackedZone,
       ("left_wrist", z) ∉ (updateBodyPartTracking
          (fun n => if n = "left_wrist" then some ⟨3, 4, 9/10⟩ else none)
          [⟨"left_wrist", 5, 5, 1/10⟩] 7).2) :=
  ⟨by norm_num [getBodyPartPosition, List.find?],
   lowconf_part_dropped
     (fun n => if n = "left_wrist" then some ⟨3, 4, 9/10⟩ else none)
     [⟨"left_wrist", 5, 5, 1/10⟩] 7 "left_wrist"
     (by norm_num [getBodyPartPosition, List.find?])⟩

/-! ## Collision detector (`checkCollision`, `detectBodyCollisions`) -/

/-- A target zone supplied to the collision detector. -/
structure Target where
  id : String
  posX : ℚ
  posY : ℚ
  radius : ℚ
deriving Repr, DecidableEq

/-- A collision event as pushed to `newCollisions`; `position` is the whole
tracked-zone record, as in the source. -/
structure CollisionEvent where
  bodyPart : String
  target : String
  timestamp : ℚ
  position : TrackedZone
deriving Repr, DecidableEq

/-- Embedding of `checkCollision`.  The source compares
`Math.sqrt(dx*dx + dy*dy) < radius`; over the nonnegative reals this holds
exactly when `radius` is positive and `dx*dx + dy*dy < radius * radius`, which
keeps the test executable over rationals (see `checkCollision_iff_sqrt`).
Absent positions (the null guard in the source) yield `false`. -/
def checkCollision (bodyPartPos targetPos : Option (ℚ × ℚ)) (radius : ℚ) : Bool :=
  match bodyPartPos, targetPos with
  | some bpos, some tpos =>
    let dx := bpos.1 - tpos.1
    let dy := bpos.2 - tpos.2
    decide (0 < radius ∧ dx * dx + dy * dy < radius * radius)
  | _, _ => false

lemma checkCollision_iff_sqrt (b1 b2 t1 t2 radius : ℚ) :
    checkCollision (some (b1, b2)) (some (t1, t2)) radius = true ↔
    Real.sqrt (((b1 - t1 : ℚ) : ℝ) ^ 2 + ((b2 - t2 : ℚ) : ℝ) ^ 2)
      < ((radius : ℚ) : ℝ) := by
  simp only [checkCollision, decide_eq_true_eq]
  constructor
  · rintro ⟨hr, hlt⟩
    have hrR : (0 : ℝ) < ((radius : ℚ) : ℝ) := by exact_mod_cast hr
    rw [Real.sqrt_lt' hrR]
    have hcast : ((b1 - t1) * (b1 - t1) + (b2 - t2) * (b2 - t2) : ℚ) <
        (radius * radius : ℚ) := hlt
    have h2 : (((b1 - t1) * (b1 - t1) + (b2 - t2) * (b2 - t2) : ℚ) : ℝ) <
        ((radius * radius : ℚ) : ℝ) := by exact_mod_cast hcast
    push_cast at h2 ⊢
    ring_nf at h2 ⊢
    linarith [h2]
  · intro h
    have hr : 0 < radius := by
      by_contra hnr
      push_neg at hnr
      have h0 : ((radius : ℚ) : ℝ) ≤ 0 := by exact_mod_cast hnr
      exact absurd h (not_lt.mpr (le_trans h0 (Real.sqrt_nonneg _)))
    refine ⟨hr, ?_⟩
    have hrR : (0 : ℝ) < ((radius : ℚ) : ℝ) := by exact_mod_cast hr
    rw [Real.sqrt_lt' hrR] at h
    push_cast at h
    have h2 : (((b1 - t1) * (b1 - t1) + (b2 - t2) * (b2 - t2) : ℚ) : ℝ) <
        ((radius * radius : ℚ) : ℝ) := by
      push_cast
      ring_nf at h ⊢
      linarith [h]
    exact_mod_cast h2

/-- The body of the inner `Object.entries(trackedParts).forEach` loop of
`detectBodyCollisions`: push a collision event when the circles overlap. -/
def collideStep (now : ℚ) (t : Target) (acc : List CollisionEvent)
    (p : String × TrackedZone) : List CollisionEvent :=
  if checkCollision (some (p.2.x, p.2.y)) (some (t.posX, t.posY))
       (p.2.radius + t.radius)
  then acc ++ [⟨p.1, t.id, now, p.2⟩]
  else acc

/-- Embedding of `detectBodyCollisions` (the event-collection part): targets
outer loop, tracked parts inner loop, events pushed in iteration order. -/
def detectBodyCollisions (trackedParts : List (String × TrackedZone))
    (targets : List Target) (now : ℚ) : List CollisionEvent :=
  targets.foldl (fun acc t => trackedParts.foldl (collideStep now t) acc) []

/-- The per-pair event list: a singleton when the pair collides, else empty. -/
def collisionHit (now : ℚ) (t : Target) (p : String × TrackedZone) :
    List CollisionEvent :=
  if checkCollision (some (p.2.x, p.2.y)) (some (t.posX, t.posY))
       (p.2.radius + t.radius)
  then [⟨p.1, t.id, now, p.2⟩]
  else []

lemma collideStep_foldl_eq (now : ℚ) (t : Target) :
    ∀ (parts : List (String × TrackedZone)) (acc : List CollisionEvent),
      parts.foldl (collideStep now t) acc
        = acc ++ parts.flatMap (collisionHit now t) := by
  intro parts
  induction parts with
  | nil => intro acc; simp
  | cons p ps ih =>
    intro acc
    rw [List.foldl_cons, ih, List.flatMap_cons]
    by_cases hcc : checkCollision (some (p.2.x, p.2.y)) (some (t.posX, t.posY))
        (p.2.radius + t.radius) = true <;>
      simp [collideStep, collisionHit, hcc, List.append_assoc]

lemma detectBodyCollisions_foldl_eq (parts : List (String × TrackedZone)) (now : ℚ) :
    ∀ (targets : List Target) (acc : List CollisionEvent),
      targets.foldl (fun acc t => parts.foldl (collideStep now t) acc) acc
        = acc ++ targets.flatMap (fun t => parts.flatMap (collisionHit now t)) := by
  intro targets
  induction targets with
  | nil => intro acc; simp
  | cons t ts ih =>
    intro acc
    rw [List.foldl_cons, ih, collideStep_foldl_eq]
    simp [List.append_assoc]

lemma detectBodyCollisions_eq_bind (parts : List (String × TrackedZone))
    (targets : List Target) (now : ℚ) :
    detectBodyCollisions parts targets now
      = targets.flatMap (fun t => parts.flatMap (collisionHit now t)) := by
  rw [detectBodyCollisions, detectBodyCollisions_foldl_eq]
  simp

/-- Claim C4: a collision event for a (zone, target) pair is emitted exactly
when the Euclidean distance between their centers is strictly less than the
sum of the two radii; every qualifying pair of the frame is emitted, with no
dependence on events of previous frames (the detector reads only the current
zones and targets). -/
theorem collision_pair_iff (parts : List (String × TrackedZone))
    (targets : List Target) (now : ℚ) (bp : String) (zone : TrackedZone)
    (t : Target) (hids : (targets.map Target.id).Nodup)
    (hz : (bp, zone) ∈ parts) (ht : t ∈ targets) :
    ((⟨bp, t.id, now, zone⟩ : CollisionEvent) ∈ detectBodyCollisions parts targets now)
      ↔ Real.sqrt (((zone.x - t.posX : ℚ) : ℝ) ^ 2 + ((zone.y - t.posY : ℚ) : ℝ) ^ 2)
          < ((zone.radius + t.radius : ℚ) : ℝ) := by
  rw [detectBodyCollisions_eq_bind, ← checkCollision_iff_sqrt]
  constructor
  · intro hmem
    rw [List.mem_flatMap] at hmem
    obtain ⟨t2, ht2, hmem⟩ := hmem
    rw [List.mem_flatMap] at hmem
    obtain ⟨p, _, hmem⟩ := hmem
    unfold collisionHit at hmem
    by_cases hc : checkCollision (some (p.2.x, p.2.y)) (some (t2.posX, t2.posY))
        (p.2.radius + t2.radius) = true
    · rw [if_pos hc] at hmem
      rw [List.mem_singleton] at hmem
      obtain ⟨hbp, hid, -, hpos⟩ := CollisionEvent.mk.injEq .. ▸ hmem
      have ht2t : t2 = t := List.inj_on_of_nodup_map hids ht2 ht hid.symm
      subst ht2t
      rw [← hpos] at hc
      exact hc
    · rw [if_neg hc] at hmem
      cases hmem
  · intro hc
    rw [List.mem_flatMap]
    refine ⟨t, ht, ?_⟩
    rw [List.mem_flatMap]
    refine ⟨(bp, zone), hz, ?_⟩
    unfold collisionHit
    rw [if_pos hc]
    exact List.mem_singleton.mpr rfl

/-- Witness for `collision_pair_iff` at the specification example: zone
`left_wrist` at the origin with radius 10, target at (13,0) with radius 4. -/
theorem collision_pair_iff_witness :
    (([⟨"t1", 13, 0, 4⟩] : List Target).map Target.id).Nodup ∧
    (("left_wrist", (⟨0, 0, 1, 10, 0⟩ : TrackedZone))
      ∈ [("left_wrist", (⟨0, 0, 1, 10, 0⟩ : TrackedZone))]) ∧
    ((⟨"t1", 13, 0, 4⟩ : Target) ∈ [(⟨"t1", 13, 0, 4⟩ : Target)]) ∧
    (((⟨"left_wrist", "t1", 0, ⟨0, 0, 1, 10, 0⟩⟩ : CollisionEvent)
        ∈ detectBodyCollisions [("left_wrist", ⟨0, 0, 1, 10, 0⟩)] [⟨"t1", 13, 0, 4⟩] 0)
      ↔ Real.sqrt ((((0 : ℚ) - 13 : ℚ) : ℝ) ^ 2 + (((0 : ℚ) - 0 : ℚ) : ℝ) ^ 2)
          < (((10 : ℚ) + 4 : ℚ) : ℝ)) ∧
    detectBodyCollisions [("left_wrist", ⟨0, 0, 1, 10, 0⟩)] [⟨"t1", 13, 0, 4⟩] 0
      = [⟨"left_wrist", "t1", 0, ⟨0, 0, 1, 10, 0⟩⟩] ∧
    detectBodyCollisions [("left_wrist", ⟨0, 0, 1, 10, 0⟩)] [⟨"t1", 15, 0, 4⟩] 0
      = [] :=
  ⟨by decide, by decide, by decide,
   collision_pair_iff [("left_wrist", ⟨0, 0, 1, 10, 0⟩)] [⟨"t1", 13, 0, 4⟩] 0
     "left_wrist" ⟨0, 0, 1, 10, 0⟩ ⟨"t1", 13, 0, 4⟩ (by decide) (by decide) (by decide),
   by norm_num [detectBodyCollisions, collideStep, checkCollision],
   by norm_num [detectBodyCollisions, collideStep, checkCollision]⟩

/-! ## Collision event history -/

/-- Embedding of the history update
`setCollisionEvents(prev => [...prev, ...newCollisions].slice(-50))`, which the
source performs only when the new batch is nonempty.  JavaScript
`slice(-50)` keeps the last 50 elements (the whole array when shorter). -/
def pushCollisions (prev newCollisions : List CollisionEvent) : List CollisionEvent :=
  if newCollisions.isEmpty then prev
  else (prev ++ newCollisions).drop ((prev ++ newCollisions).length - 50)

/-- Claim C5: the collision history is a bounded ring of at most 50 events:
appending a batch keeps only the most recent 50 (a suffix of the concatenation,
so oldest are evicted first and arrival order is preserved), and once at least
50 events have been seen the history holds exactly 50. -/
theorem collision_history_bound (prev batch : List CollisionEvent)
    (hb : prev.length ≤ 50) :
    (pushCollisions prev batch).length ≤ 50 ∧
    (pushCollisions prev batch) <:+ (prev ++ batch) ∧
    (pushCollisions prev batch)
      = (prev ++ batch).drop (prev.length + batch.length - 50) ∧
    (50 ≤ prev.length + batch.length → (pushCollisions prev batch).length = 50) := by
  rw [pushCollisions]
  by_cases hbe : batch.isEmpty
  · rw [if_pos hbe]
    have hbn : batch = [] := List.isEmpty_iff.mp hbe
    subst hbn
    refine ⟨hb, by simp, ?_, ?_⟩
    · have h0 : prev.length + ([] : List CollisionEvent).length - 50 = 0 := by
        simp only [List.length_nil]
        omega
      rw [h0, List.append_nil, List.drop_zero]
    · intro h50
      simp only [List.length_nil] at h50
      omega
  · rw [if_neg hbe]
    have hlen : (prev ++ batch).length = prev.length + batch.length :=
      List.length_append _ _
    refine ⟨?_, List.drop_suffix _ _, by rw [hlen], ?_⟩
    · rw [List.length_drop, hlen]
      omega
    · intro h50
      rw [List.length_drop, hlen]
      omega

/-- Sixty pairwise distinct collision events, used to exercise the history. -/
def sixtyEvents : List CollisionEvent :=
  (List.range 60).map fun i => ⟨"p", "t", (i : ℚ), ⟨0, 0, 0, 0, 0⟩⟩

/-- Witness for `collision_history_bound`: pushing 60 distinct events onto an
empty history leaves exactly the most recent 50, in order (the suffix obtained
by dropping the oldest 10). -/
theorem collision_history_bound_witness :
    (([] : List CollisionEvent).length ≤ 50) ∧
    ((pushCollisions [] sixtyEvents).length ≤ 50 ∧
     pushCollisions [] sixtyEvents <:+ ([] ++ sixtyEvents) ∧
     pushCollisions [] sixtyEvents
       = ([] ++ sixtyEvents).drop
           (([] : List CollisionEvent).length + sixtyEvents.length - 50) ∧
     (50 ≤ ([] : List CollisionEvent).length + sixtyEvents.length →
      (pushCollisions [] sixtyEvents).length = 50)) :=
  ⟨by decide, collision_history_bound [] sixtyEvents (by decide)⟩

/-! ## Session recorder (`startRecording`, `stopRecording`, recording timer) -/

/-- A single 3D hand landmark. -/
structure HandLandmark where
  x : ℚ
  y : ℚ
  z : ℚ
deriving Repr, DecidableEq

/-- A recorded frame as pushed to `sessionDataRef` by `recordFrameData`
(fields consumed by the binary serializer; the JSON-only `videoMeta` and
`handedness` side fields are not read by `createBinaryData`). -/
structure FrameData where
  timestamp : ℚ
  frameNumber : Nat
  pose2d : List Keypoint
  hands2d : List (List HandLandmark)
  hands3d : List (List HandLandmark)
deriving Repr, DecidableEq

/-- The hand-landmarker per-frame result consumed by `recordFrameData`. -/
structure HandResult where
  landmarks : List (List HandLandmark)
  worldLandmarks : List (List HandLandmark)
deriving Repr, DecidableEq

/-- Embedding of `recordFrameData`: builds the frame record appended to the
session buffer; `sessionLength` is the buffer length at call time. -/
def recordFrameData (handResult : HandResult) (poses : List (List Keypoint))
    (timestamp : ℚ) (sessionLength : Nat) : FrameData :=
  { timestamp := timestamp
    frameNumber := sessionLength
    pose2d := match poses with | [] => [] | kps :: _ => kps
    hands2d := handResult.landmarks
    hands3d := handResult.worldLandmarks }

/-- The recording-related component state: the `isRecording` and
`recordingTime` state hooks, the `sessionDataRef` buffer, whether the
100 ms interval timer is installed, and the `error` state hook. -/
structure RecState where
  isRecording : Bool
  recordingTime : ℚ
  sessionData : List FrameData
  timerActive : Bool
  error : Option String
deriving Repr, DecidableEq

/-- Embedding of `startRecording`: precondition checks followed by buffer
reset and timer installation. -/
def startRecording (selectedAction : String) (cameraActive : Bool)
    (s : RecState) : RecState :=
  if selectedAction = "" then
    { s with error := some "Select an action before recording" }
  else if cameraActive = false then
    { s with error := some "Camera must be active to record" }
  else
    { s with isRecording := true, recordingTime := 0, sessionData := [],
             timerActive := true }

/-- Embedding of `stopRecording` (state part): stops recording and clears the
interval timer; the buffer itself is not cleared here. -/
def stopRecording (s : RecState) : RecState :=
  { s with isRecording := false, timerActive := false }

/-- Embedding of one 100 ms interval tick: when the previous elapsed value has
reached 9.9 the recording is stopped and the elapsed time set to 10, otherwise
the elapsed time advances by 0.1. -/
def recordingTick (s : RecState) : RecState :=
  if s.timerActive = false then s
  else if (99 : ℚ)/10 ≤ s.recordingTime then
    { stopRecording s with recordingTime := 10 }
  else
    { s with recordingTime := s.recordingTime + 1/10 }

lemma recordingTick_iterate (s0 : RecState) (ha : s0.timerActive = true)
    (ht : s0.recordingTime = 0) :
    ∀ k : ℕ, k ≤ 99 →
      recordingTick^[k] s0 = { s0 with recordingTime := (k : ℚ)/10 } := by
  intro k
  induction k with
  | zero =>
    intro _
    rw [Function.iterate_zero_apply]
    rw [show ((0 : ℕ) : ℚ)/10 = s0.recordingTime by rw [ht]; norm_num]
  | succ n ih =>
    intro hk
    have hn : n ≤ 99 := Nat.le_of_succ_le hk
    have hlt : ((n : ℚ))/10 < 99/10 := by
      have hn98 : (n : ℚ) ≤ 98 := by exact_mod_cast (by omega : n ≤ 98)
      linarith
    rw [Function.iterate_succ_apply', ih hn, recordingTick]
    simp [ha, not_le.mpr hlt]
    ring

lemma recordingTick_hundred (s0 : RecState) (ha : s0.timerActive = true)
    (ht : s0.recordingTime = 0) :
    recordingTick^[100] s0
      = { s0 with isRecording := false, timerActive := false,
                  recordingTime := 10 } := by
  have h99 := recordingTick_iterate s0 ha ht 99 (le_refl _)
  rw [show (100 : ℕ) = 99 + 1 from rfl, Function.iterate_succ_apply', h99,
    recordingTick]
  have hge : (99 : ℚ)/10 ≤ ((99 : ℕ) : ℚ)/10 := by norm_num
  simp [ha, hge, stopRecording]

/-- Claim C9: `startRecording` fails when no action label is selected or the
camera is not active, surfacing an error and leaving the timer, the recording
flag and the frame buffer untouched; when both preconditions hold it clears
the buffer and starts the 100 ms timer, which keeps the recording running at
elapsed time k/10 for the first 99 ticks and auto-stops it on the hundredth
tick at exactly 10.0 seconds elapsed. -/
theorem startRecording_spec (selectedAction : String) (cameraActive : Bool)
    (s : RecState) (hrec : s.isRecording = false) :
    (selectedAction = "" →
      startRecording selectedAction cameraActive s
        = { s with error := some "Select an action before recording" } ∧
      (startRecording selectedAction cameraActive s).isRecording = false ∧
      (startRecording selectedAction cameraActive s).timerActive = s.timerActive ∧
      (startRecording selectedAction cameraActive s).sessionData = s.sessionData) ∧
    (selectedAction ≠ "" → cameraActive = false →
      startRecording selectedAction cameraActive s
        = { s with error := some "Camera must be active to record" } ∧
      (startRecording selectedAction cameraActive s).isRecording = false ∧
      (startRecording selectedAction cameraActive s).timerActive = s.timerActive ∧
      (startRecording selectedAction cameraActive s).sessionData = s.sessionData) ∧
    (selectedAction ≠ "" → cameraActive = true →
      (startRecording selectedAction cameraActive s).sessionData = [] ∧
      (startRecording selectedAction cameraActive s).isRecording = true ∧
      (startRecording selectedAction cameraActive s).timerActive = true ∧
      (startRecording selectedAction cameraActive s).recordingTime = 0 ∧
      (∀ k : ℕ, k ≤ 99 →
        (recordingTick^[k] (startRecording selectedAction cameraActive s)).isRecording
          = true ∧
        (recordingTick^[k] (startRecording selectedAction cameraActive s)).recordingTime
          = (k : ℚ)/10) ∧
      (recordingTick^[100] (startRecording selectedAction cameraActive s)).isRecording
        = false ∧
      (recordingTick^[100] (startRecording selectedAction cameraActive s)).recordingTime
        = 10) := by
  refine ⟨?_, ?_, ?_⟩
  · intro hsel
    rw [startRecording, if_pos hsel]
    exact ⟨rfl, hrec, rfl, rfl⟩
  · intro hsel hcam
    rw [startRecording, if_neg hsel, if_pos hcam]
    exact ⟨rfl, hrec, rfl, rfl⟩
  · intro hsel hcam
    have hstart : startRecording selectedAction cameraActive s
        = { s with isRecording := true, recordingTime := 0, sessionData := [],
                   timerActive := true } := by
      rw [startRecording, if_neg hsel]
      rw [if_neg (by simp [hcam])]
    rw [hstart]
    set s0 : RecState :=
      { s with isRecording := true, recordingTime := 0, sessionData := [],
               timerActive := true } with hs0
    have ha : s0.timerActive = true := rfl
    have ht : s0.recordingTime = 0 := rfl
    refine ⟨rfl, rfl, rfl, rfl, ?_, ?_, ?_⟩
    · intro k hk
      rw [recordingTick_iterate s0 ha ht k hk]
      exact ⟨rfl, rfl⟩
    · rw [recordingTick_hundred s0 ha ht]
    · rw [recordingTick_hundred s0 ha ht]

/-- The recorder state before any recording has started. -/
def recInit : RecState := ⟨false, 0, [], false, none⟩

/-- Witness for `startRecording_spec` with action label `walk`, active camera
and the initial recorder state. -/
theorem startRecording_spec_witness :
    recInit.isRecording = false ∧
    (("walk" : String) = "" →
      startRecording "walk" true recInit
        = { recInit with error := some "Select an action before recording" } ∧
      (startRecording "walk" true recInit).isRecording = false ∧
      (startRecording "walk" true recInit).timerActive = recInit.timerActive ∧
      (startRecording "walk" true recInit).sessionData = recInit.sessionData) ∧
    (("walk" : String) ≠ "" → true = false →
      startRecording "walk" true recInit
        = { recInit with error := some "Camera must be active to record" } ∧
      (startRecording "walk" true recInit).isRecording = false ∧
      (startRecording "walk" true recInit).timerActive = recInit.timerActive ∧
      (startRecording "walk" true recInit).sessionData = recInit.sessionData) ∧
    (("walk" : String) ≠ "" → true = true →
      (startRecording "walk" true recInit).sessionData = [] ∧
      (startRecording "walk" true recInit).isRecording = true ∧
      (startRecording "walk" true recInit).timerActive = true ∧
      (startRecording "walk" true recInit).recordingTime = 0 ∧
      (∀ k : ℕ, k ≤ 99 →
        (recordingTick^[k] (startRecording "walk" true recInit)).isRecording = true ∧
        (recordingTick^[k] (startRecording "walk" true recInit)).recordingTime
          = (k : ℚ)/10) ∧
      (recordingTick^[100] (startRecording "walk" true recInit)).isRecording = false ∧
      (recordingTick^[100] (startRecording "walk" true recInit)).recordingTime = 10) :=
  ⟨rfl, startRecording_spec "walk" true recInit rfl⟩

/-! ## Frame loop (`detectPose`): one scheduled tick as a trace of effects -/

/-- The readiness-relevant fields of the source video element. -/
structure VideoElem where
  videoWidth : Nat
  videoHeight : Nat
  readyState : Nat
deriving Repr, DecidableEq

/-- The observable effects of one `detectPose` tick, in program order. -/
inductive TickAction
  | estimatePoses
  | updateTracking
  | detectCollisions
  | handDetect
  | recordFrame
  | drawOverlays
  | reschedule
deriving Repr, DecidableEq

/-- The inputs a single `detectPose` tick branches on. -/
structure TickInput where
  detectorPresent : Bool
  videoPresent : Bool
  canvasPresent : Bool
  video : VideoElem
  handLandmarkerPresent : Bool
  isRecording : Bool
  posesNonempty : Bool
  handResultPresent : Bool
deriving Repr, DecidableEq

/-- The video-readiness guard of `detectPose`: nonzero dimensions and
`readyState` at least 2 (HAVE_CURRENT_DATA). -/
def videoReadyForDetection (v : VideoElem) : Bool :=
  !(v.videoWidth == 0) && !(v.videoHeight == 0) && !(v.readyState < 2)

/-- Embedding of one `detectPose` tick as the ordered list of effects it
performs.  The pose detector runs first; the video-readiness guard is
evaluated only inside the hand-landmarker branch, after the pose stage, and a
not-ready frame reschedules the loop and returns early, skipping only the
hand detection, recording and overlay-drawing stages. -/
def detectPoseTick (inp : TickInput) : List TickAction :=
  if !inp.detectorPresent || !inp.videoPresent || !inp.canvasPresent then []
  else
    let poseStage := [TickAction.estimatePoses] ++
      (if inp.posesNonempty
       then [TickAction.updateTracking, TickAction.detectCollisions] else [])
    if inp.handLandmarkerPresent then
      if !(videoReadyForDetection inp.video) then
        poseStage ++ [TickAction.reschedule]
      else
        poseStage ++ [TickAction.handDetect] ++
        (if inp.isRecording && inp.handResultPresent
         then [TickAction.recordFrame] else []) ++
        [TickAction.drawOverlays, TickAction.reschedule]
    else
      poseStage ++ [TickAction.drawOverlays, TickAction.reschedule]

/-- Claim C8 (counterexample): on a tick whose video frame is not ready
(zero dimensions, `readyState` 0) the pose detector has nevertheless been
invoked, contradicting the claim that neither detector is called on such a
tick. -/
theorem pose_detector_runs_when_not_ready :
    videoReadyForDetection ⟨0, 0, 0⟩ = false ∧
    TickAction.estimatePoses
      ∈ detectPoseTick ⟨true, true, true, ⟨0, 0, 0⟩, true, false, false, false⟩ := by
  constructor
  · rfl
  · decide

/-- Claim C8 (amended): on a scheduled tick where the hand landmarker is
initialized and the source video frame is not ready, the hand-landmark
detector is not invoked, no frame is recorded, no overlays are drawn, and the
tick is silently rescheduled — but the pose detector has already been invoked
earlier in that same tick, because the readiness guard is evaluated only
before the hand-detection stage. -/
theorem not_ready_skips_hand_stage (inp : TickInput)
    (hd : inp.detectorPresent = true) (hv : inp.videoPresent = true)
    (hc : inp.canvasPresent = true) (hh : inp.handLandmarkerPresent = true)
    (hnr : videoReadyForDetection inp.video = false) :
    TickAction.handDetect ∉ detectPoseTick inp ∧
    TickAction.recordFrame ∉ detectPoseTick inp ∧
    TickAction.drawOverlays ∉ detectPoseTick inp ∧
    TickAction.reschedule ∈ detectPoseTick inp ∧
    TickAction.estimatePoses ∈ detectPoseTick inp := by
  rw [detectPoseTick]
  simp only [hd, hv, hc, hh, hnr]
  by_cases hp : inp.posesNonempty = true <;> simp [hp]

/-- Witness for `not_ready_skips_hand_stage` at a concrete not-ready tick. -/
theorem not_ready_skips_hand_stage_witness :
    (⟨true, true, true, ⟨640, 480, 1⟩, true, true, true, true⟩ : TickInput).detectorPresent = true ∧
    (⟨true, true, true, ⟨640, 480, 1⟩, true, true, true, true⟩ : TickInput).videoPresent = true ∧
    (⟨true, true, true, ⟨640, 480, 1⟩, true, true, true, true⟩ : TickInput).canvasPresent = true ∧
    (⟨true, true, true, ⟨640, 480, 1⟩, true, true, true, true⟩ : TickInput).handLandmarkerPresent = true ∧
    videoReadyForDetection ⟨640, 480, 1⟩ = false ∧
    (TickAction.handDetect
        ∉ detectPoseTick ⟨true, true, true, ⟨640, 480, 1⟩, true, true, true, true⟩ ∧
     TickAction.recordFrame
        ∉ detectPoseTick ⟨true, true, true, ⟨640, 480, 1⟩, true, true, true, true⟩ ∧
     TickAction.drawOverlays
        ∉ detectPoseTick ⟨true, true, true, ⟨640, 480, 1⟩, true, true, true, true⟩ ∧
     TickAction.reschedule
        ∈ detectPoseTick ⟨true, true, true, ⟨640, 480, 1⟩, true, true, true, true⟩ ∧
     TickAction.estimatePoses
        ∈ detectPoseTick ⟨true, true, true, ⟨640, 480, 1⟩, true, true, true, true⟩) :=
  ⟨rfl, rfl, rfl, rfl, rfl,
   not_ready_skips_hand_stage ⟨true, true, true, ⟨640, 480, 1⟩, true, true, true, true⟩
     rfl rfl rfl rfl rfl⟩

/-! ## Binary session serializer (`createBinaryData`)

The DataView writes are modelled as a list of typed cells, each carrying the
value written and the little-endian flag passed at the call site, together
with the running byte offset.  A DataView setter throws a range error as soon
as a write crosses the end of the allocated buffer; since the offset only
grows, serialization succeeds exactly when the final offset fits the
allocation, and the returned buffer is `buffer.slice(0, offset)`. -/

/-- One DataView write: the kind determines the byte width. -/
inductive BinCell
  | u32 (value : Nat) (littleEndian : Bool)
  | f64 (value : ℚ) (littleEndian : Bool)
  | f32 (value : ℚ) (littleEndian : Bool)
deriving Repr, DecidableEq

/-- Byte width of one write. -/
def BinCell.byteSize : BinCell → Nat
  | u32 _ _ => 4
  | f64 _ _ => 8
  | f32 _ _ => 4

/-- The little-endian flag passed to the DataView setter. -/
def BinCell.isLittleEndian : BinCell → Bool
  | u32 _ le => le
  | f64 _ le => le
  | f32 _ le => le

/-- Total byte size of a list of writes. -/
def cellsSize (cells : List BinCell) : Nat := (cells.map BinCell.byteSize).sum

/-- The serializer state: the writes so far and the running `offset`. -/
structure WriteState where
  cells : List BinCell
  offset : Nat
deriving Repr, DecidableEq

/-- `view.setUint32(offset, v, true); offset += 4`. -/
def writeU32 (st : WriteState) (v : Nat) : WriteState :=
  ⟨st.cells ++ [.u32 v true], st.offset + 4⟩

/-- `view.setFloat64(offset, v, true); offset += 8`. -/
def writeF64 (st : WriteState) (v : ℚ) : WriteState :=
  ⟨st.cells ++ [.f64 v true], st.offset + 8⟩

/-- `view.setFloat32(offset, v, true); offset += 4`. -/
def writeF32 (st : WriteState) (v : ℚ) : WriteState :=
  ⟨st.cells ++ [.f32 v true], st.offset + 4⟩

/-- The `frame.pose2d.forEach` body: writes x, y, score as float32. -/
def writePoseLandmark (st : WriteState) (landmark : Keypoint) : WriteState :=
  writeF32 (writeF32 (writeF32 st landmark.x) landmark.y) landmark.score

/-- The innermost `hand.forEach` body: writes x, y, z as float32. -/
def writeHandLandmark (st : WriteState) (landmark : HandLandmark) : WriteState :=
  writeF32 (writeF32 (writeF32 st landmark.x) landmark.y) landmark.z

/-- The `frame.hands3d.forEach` body: writes all 3D landmarks of one hand,
with no per-hand count or delimiter. -/
def writeHand (st : WriteState) (hand : List HandLandmark) : WriteState :=
  hand.foldl writeHandLandmark st

/-- The `frames.forEach` body: timestamp, frame number, pose landmarks, then
hand landmarks. -/
def writeFrame (st : WriteState) (frame : FrameData) : WriteState :=
  frame.hands3d.foldl writeHand
    (frame.pose2d.foldl writePoseLandmark
      (writeU32 (writeF64 st frame.timestamp) frame.frameNumber))

/-- All writes performed by `createBinaryData`: the frame-count header
followed by every frame in capture order. -/
def createBinaryWrites (frames : List FrameData) : WriteState :=
  frames.foldl writeFrame (writeU32 ⟨[], 0⟩ frames.length)

/-- The allocation `new ArrayBuffer(frames.length * 4 * 1000)`. -/
def allocBytes (frames : List FrameData) : Nat := frames.length * 4 * 1000

/-- Embedding of `createBinaryData`: the writes and the byte length of the
returned `buffer.slice(0, offset)`, or `none` when a write would cross the
end of the allocation (a DataView range error). -/
def createBinaryData (frames : List FrameData) : Option (List BinCell × Nat) :=
  if (createBinaryWrites frames).offset ≤ allocBytes frames
  then some ((createBinaryWrites frames).cells, (createBinaryWrites frames).offset)
  else none

/-- The declarative per-frame pose section: x, y, score triples in keypoint
order. -/
def poseCells (f : FrameData) : List BinCell :=
  f.pose2d.flatMap fun l => [.f32 l.x true, .f32 l.y true, .f32 l.score true]

/-- The declarative per-frame hand section: for each detected hand its 21
landmarks as x, y, z triples, with no inline hand-count prefix. -/
def handCells (f : FrameData) : List BinCell :=
  f.hands3d.flatMap fun hand =>
    hand.flatMap fun l => [.f32 l.x true, .f32 l.y true, .f32 l.z true]

/-- The declarative per-frame layout: float64 timestamp, uint32 frame index,
pose section, hand section. -/
def frameLayout (f : FrameData) : List BinCell :=
  [.f64 f.timestamp true, .u32 f.frameNumber true] ++ poseCells f ++ handCells f

/-- The declarative session layout: uint32 frame count, then the frames. -/
def sessionLayout (frames : List FrameData) : List BinCell :=
  .u32 frames.length true :: frames.flatMap frameLayout

/-- The `numHands` option passed to the hand-landmarker configuration. -/
def handLandmarkerNumHands : Nat := 2

lemma cellsSize_nil : cellsSize [] = 0 := rfl

lemma cellsSize_append (a b : List BinCell) :
    cellsSize (a ++ b) = cellsSize a + cellsSize b := by
  simp [cellsSize]

lemma foldl_writer {α : Type} (g : WriteState → α → WriteState)
    (h : α → List BinCell)
    (hg : ∀ (st : WriteState) (a : α),
      g st a = ⟨st.cells ++ h a, st.offset + cellsSize (h a)⟩) :
    ∀ (l : List α) (st : WriteState),
      l.foldl g st = ⟨st.cells ++ l.flatMap h,
                      st.offset + cellsSize (l.flatMap h)⟩ := by
  intro l
  induction l with
  | nil => intro st; simp [cellsSize]
  | cons a t ih =>
    intro st
    rw [List.foldl_cons, hg, ih, List.flatMap_cons]
    simp [cellsSize_append, List.append_assoc]
    omega

lemma writePoseLandmark_eq (st : WriteState) (kp : Keypoint) :
    writePoseLandmark st kp
      = ⟨st.cells ++ [.f32 kp.x true, .f32 kp.y true, .f32 kp.score true],
         st.offset + cellsSize [.f32 kp.x true, .f32 kp.y true, .f32 kp.score true]⟩ := by
  simp [writePoseLandmark, writeF32, cellsSize, BinCell.byteSize]

lemma writeHandLandmark_eq (st : WriteState) (l : HandLandmark) :
    writeHandLandmark st l
      = ⟨st.cells ++ [.f32 l.x true, .f32 l.y true, .f32 l.z true],
         st.offset + cellsSize [.f32 l.x true, .f32 l.y true, .f32 l.z true]⟩ := by
  simp [writeHandLandmark, writeF32, cellsSize, BinCell.byteSize]

lemma writeHand_eq (st : WriteState) (hand : List HandLandmark) :
    writeHand st hand
      = ⟨st.cells ++ hand.flatMap (fun l => [.f32 l.x true, .f32 l.y true, .f32 l.z true]),
         st.offset + cellsSize (hand.flatMap
           (fun l => [.f32 l.x true, .f32 l.y true, .f32 l.z true]))⟩ := by
  rw [writeHand]
  exact foldl_writer writeHandLandmark _ writeHandLandmark_eq hand st

lemma writeFrame_eq (st : WriteState) (f : FrameData) :
    writeFrame st f
      = ⟨st.cells ++ frameLayout f, st.offset + cellsSize (frameLayout f)⟩ := by
  rw [writeFrame]
  rw [foldl_writer writePoseLandmark _ writePoseLandmark_eq]
  rw [foldl_writer writeHand _ writeHand_eq]
  simp only [writeU32, writeF64, frameLayout, poseCells, handCells]
  refine congrArg₂ WriteState.mk ?_ ?_
  · simp [List.append_assoc]
  · simp [cellsSize_append, cellsSize, BinCell.byteSize]
    omega

lemma createBinaryWrites_eq (frames : List FrameData) :
    createBinaryWrites frames
      = ⟨sessionLayout frames, cellsSize (sessionLayout frames)⟩ := by
  rw [createBinaryWrites, foldl_writer writeFrame _ writeFrame_eq]
  simp only [writeU32, sessionLayout]
  refine congrArg₂ WriteState.mk rfl ?_
  simp [cellsSize, BinCell.byteSize]

lemma cellsSize_flatMap_le {α : Type} (g : α → List BinCell) (c : Nat)
    (l : List α) (hc : ∀ a ∈ l, cellsSize (g a) ≤ c) :
    cellsSize (l.flatMap g) ≤ c * l.length := by
  induction l with
  | nil => simp [cellsSize]
  | cons a t ih =>
    rw [List.flatMap_cons, cellsSize_append, List.length_cons]
    have h1 := hc a (List.mem_cons_self _ _)
    have h2 := ih fun a ha => hc a (List.mem_cons_of_mem _ ha)
    calc cellsSize (g a) + cellsSize (t.flatMap g) ≤ c + c * t.length := by omega
    _ = c * (t.length + 1) := by ring

lemma cellsSize_triple (x y z : ℚ) :
    cellsSize [BinCell.f32 x true, BinCell.f32 y true, BinCell.f32 z true] = 12 := rfl

lemma cellsSize_poseCells (f : FrameData) :
    cellsSize (poseCells f) ≤ 12 * f.pose2d.length := by
  rw [poseCells]
  exact cellsSize_flatMap_le _ 12 _ fun l _ => le_of_eq (cellsSize_triple _ _ _)

lemma cellsSize_handCells (f : FrameData)
    (h2 : f.hands3d.length ≤ handLandmarkerNumHands)
    (h21 : ∀ hand ∈ f.hands3d, hand.length = 21) :
    cellsSize (handCells f) ≤ 504 := by
  rw [handCells]
  have hbound : cellsSize (f.hands3d.flatMap fun hand =>
      hand.flatMap fun l => [BinCell.f32 l.x true, BinCell.f32 l.y true, BinCell.f32 l.z true])
      ≤ 252 * f.hands3d.length := by
    refine cellsSize_flatMap_le _ 252 _ fun hand hh => ?_
    have hlen := h21 hand hh
    have := cellsSize_flatMap_le
      (fun l : HandLandmark => [BinCell.f32 l.x true, BinCell.f32 l.y true, BinCell.f32 l.z true])
      12 hand (fun l _ => le_of_eq (cellsSize_triple _ _ _))
    rw [hlen] at this
    omega
  have hn : f.hands3d.length ≤ 2 := h2
  omega

lemma cellsSize_frameLayout_le (f : FrameData)
    (hp : f.pose2d.length ≤ 17)
    (h2 : f.hands3d.length ≤ handLandmarkerNumHands)
    (h21 : ∀ hand ∈ f.hands3d, hand.length = 21) :
    cellsSize (frameLayout f) ≤ 720 := by
  rw [frameLayout, cellsSize_append, cellsSize_append]
  have hpose := cellsSize_poseCells f
  have hhand := cellsSize_handCells f h2 h21
  have hhead : cellsSize [BinCell.f64 f.timestamp true, BinCell.u32 f.frameNumber true] = 12 := rfl
  omega

lemma sessionLayout_size (frames : List FrameData) :
    cellsSize (sessionLayout frames)
      = 4 + cellsSize (frames.flatMap frameLayout) := by
  rw [sessionLayout]
  simp [cellsSize, BinCell.byteSize]

lemma binary_offset_eq (frames : List FrameData) :
    (createBinaryWrites frames).offset
      = 4 + cellsSize (frames.flatMap frameLayout) := by
  rw [createBinaryWrites_eq, sessionLayout_size]

lemma binary_offset_le_alloc (frames : List FrameData) (hne : frames ≠ [])
    (hp : ∀ f ∈ frames, f.pose2d.length ≤ 17)
    (hh : ∀ f ∈ frames, f.hands3d.length ≤ handLandmarkerNumHands ∧
      ∀ hand ∈ f.hands3d, hand.length = 21) :
    (createBinaryWrites frames).offset ≤ allocBytes frames := by
  have hper : ∀ f ∈ frames, cellsSize (frameLayout f) ≤ 720 := fun f hf =>
    cellsSize_frameLayout_le f (hp f hf) (hh f hf).1 (hh f hf).2
  have htotal : cellsSize (frames.flatMap frameLayout) ≤ 720 * frames.length :=
    cellsSize_flatMap_le _ 720 _ hper
  have hlen : 1 ≤ frames.length := by
    cases frames with
    | nil => exact absurd rfl hne
    | cons a t => simp
  rw [binary_offset_eq, allocBytes]
  have : 4 + 720 * frames.length ≤ frames.length * 4 * 1000 := by
    nlinarith [hlen]
  omega

/-- Claim C10: all writes of a nonempty session whose frames carry at most 17
pose keypoints and at most `numHands = 2` hands of 21 landmarks each fit the
`frames.length * 4 * 1000` byte allocation — each frame contributes at most
720 bytes (724 with the header for the first), so serialization cannot throw
a range error. -/
theorem createBinaryData_within_alloc (frames : List FrameData)
    (hne : frames ≠ [])
    (hp : ∀ f ∈ frames, f.pose2d.length ≤ 17)
    (hh : ∀ f ∈ frames, f.hands3d.length ≤ handLandmarkerNumHands ∧
      ∀ hand ∈ f.hands3d, hand.length = 21) :
    (∀ f ∈ frames, cellsSize (frameLayout f) ≤ 720 ∧
       4 + cellsSize (frameLayout f) ≤ 724) ∧
    (createBinaryWrites frames).offset
      = 4 + cellsSize (frames.flatMap frameLayout) ∧
    (createBinaryWrites frames).offset ≤ allocBytes frames ∧
    createBinaryData frames
      = some ((createBinaryWrites frames).cells, (createBinaryWrites frames).offset) := by
  have hper : ∀ f ∈ frames, cellsSize (frameLayout f) ≤ 720 := fun f hf =>
    cellsSize_frameLayout_le f (hp f hf) (hh f hf).1 (hh f hf).2
  have halloc := binary_offset_le_alloc frames hne hp hh
  refine ⟨fun f hf => ⟨hper f hf, by have := hper f hf; omega⟩,
    binary_offset_eq frames, halloc, ?_⟩
  rw [createBinaryData, if_pos halloc]

/-- A sample recorded frame: a full 17-keypoint pose and one hand of 21
landmarks. -/
def sampleFrame : FrameData :=
  { timestamp := 1000
    frameNumber := 0
    pose2d := List.replicate 17 ⟨"kp", 1, 2, 1⟩
    hands2d := [List.replicate 21 ⟨0, 0, 0⟩]
    hands3d := [List.replicate 21 ⟨1, 2, 3⟩] }

/-- Witness for `createBinaryData_within_alloc` on a one-frame session. -/
theorem createBinaryData_within_alloc_witness :
    ([sampleFrame] ≠ []) ∧
    (∀ f ∈ [sampleFrame], f.pose2d.length ≤ 17) ∧
    (∀ f ∈ [sampleFrame], f.hands3d.length ≤ handLandmarkerNumHands ∧
      ∀ hand ∈ f.hands3d, hand.length = 21) ∧
    ((∀ f ∈ [sampleFrame], cellsSize (frameLayout f) ≤ 720 ∧
        4 + cellsSize (frameLayout f) ≤ 724) ∧
     (createBinaryWrites [sampleFrame]).offset
       = 4 + cellsSize (([sampleFrame]).flatMap frameLayout) ∧
     (createBinaryWrites [sampleFrame]).offset ≤ allocBytes [sampleFrame] ∧
     createBinaryData [sampleFrame]
       = some ((createBinaryWrites [sampleFrame]).cells,
               (createBinaryWrites [sampleFrame]).offset)) :=
  ⟨by decide, by decide, by decide,
   createBinaryData_within_alloc [sampleFrame] (by decide) (by decide) (by decide)⟩

lemma all_flatMap_littleEndian {α : Type} (g : α → List BinCell)
    (hg : ∀ a, (g a).all BinCell.isLittleEndian = true) (l : List α) :
    (l.flatMap g).all BinCell.isLittleEndian = true := by
  induction l with
  | nil => rfl
  | cons a t ih => rw [List.flatMap_cons, List.all_append, hg, ih]; rfl

lemma poseCells_littleEndian (f : FrameData) :
    (poseCells f).all BinCell.isLittleEndian = true := by
  rw [poseCells]
  exact all_flatMap_littleEndian
    (fun l : Keypoint =>
      [BinCell.f32 l.x true, BinCell.f32 l.y true, BinCell.f32 l.score true])
    (fun l => rfl) _

lemma handCells_littleEndian (f : FrameData) :
    (handCells f).all BinCell.isLittleEndian = true := by
  rw [handCells]
  exact all_flatMap_littleEndian
    (fun hand : List HandLandmark => hand.flatMap fun l =>
      [BinCell.f32 l.x true, BinCell.f32 l.y true, BinCell.f32 l.z true])
    (fun hand => all_flatMap_littleEndian
      (fun l : HandLandmark =>
        [BinCell.f32 l.x true, BinCell.f32 l.y true, BinCell.f32 l.z true])
      (fun l => rfl) hand) _

lemma frameLayout_littleEndian (f : FrameData) :
    (frameLayout f).all BinCell.isLittleEndian = true := by
  rw [frameLayout, List.all_append, List.all_append,
    poseCells_littleEndian f, handCells_littleEndian f]
  rfl

lemma sessionLayout_littleEndian (frames : List FrameData) :
    (sessionLayout frames).all BinCell.isLittleEndian = true := by
  rw [sessionLayout, List.all_cons,
    all_flatMap_littleEndian _ frameLayout_littleEndian frames]
  rfl

lemma cellsSize_poseCells_eq (f : FrameData) (hp : f.pose2d.length = 17) :
    cellsSize (poseCells f) = 204 := by
  have : ∀ l : List Keypoint,
      cellsSize (l.flatMap fun l =>
        [BinCell.f32 l.x true, BinCell.f32 l.y true, BinCell.f32 l.score true])
        = 12 * l.length := by
    intro l
    induction l with
    | nil => rfl
    | cons a t ih =>
      rw [List.flatMap_cons, cellsSize_append, ih, List.length_cons]
      simp [cellsSize, BinCell.byteSize]
      ring
  rw [poseCells, this, hp]

/-- Claim C1: on a nonempty session whose frames carry the full 17 pose
keypoints and at most `numHands = 2` hands of 21 landmarks each,
`createBinaryData` succeeds and its writes are, in order: a uint32
frame-count header, then per frame a float64 timestamp, a uint32 frame index,
the 17 keypoint x, y, score float32 triples (204 bytes), then each detected
hand as 21 x, y, z float32 triples with no inline hand-count prefix; every
write is little-endian, and the returned buffer length is exactly the bytes
written, with no padding. -/
theorem createBinaryData_layout (frames : List FrameData)
    (hne : frames ≠ [])
    (hp : ∀ f ∈ frames, f.pose2d.length = 17)
    (hh : ∀ f ∈ frames, f.hands3d.length ≤ handLandmarkerNumHands ∧
      ∀ hand ∈ f.hands3d, hand.length = 21) :
    createBinaryData frames
      = some (sessionLayout frames, cellsSize (sessionLayout frames)) ∧
    sessionLayout frames
      = BinCell.u32 frames.length true :: frames.flatMap frameLayout ∧
    (∀ f ∈ frames,
      frameLayout f
        = [BinCell.f64 f.timestamp true, BinCell.u32 f.frameNumber true]
            ++ poseCells f ++ handCells f ∧
      cellsSize (poseCells f) = 204) ∧
    (∀ c ∈ sessionLayout frames, c.isLittleEndian = true) := by
  have hple : ∀ f ∈ frames, f.pose2d.length ≤ 17 := fun f hf => le_of_eq (hp f hf)
  have halloc : (createBinaryWrites frames).offset ≤ allocBytes frames :=
    binary_offset_le_alloc frames hne hple hh
  refine ⟨?_, rfl, ?_, ?_⟩
  · rw [createBinaryData, if_pos halloc, createBinaryWrites_eq]
  · intro f hf
    exact ⟨rfl, cellsSize_poseCells_eq f (hp f hf)⟩
  · intro c hc
    exact List.all_eq_true.mp (sessionLayout_littleEndian frames) c hc

/-- Witness for `createBinaryData_layout` on a one-frame session. -/
theorem createBinaryData_layout_witness :
    ([sampleFrame] ≠ []) ∧
    (∀ f ∈ [sampleFrame], f.pose2d.length = 17) ∧
    (∀ f ∈ [sampleFrame], f.hands3d.length ≤ handLandmarkerNumHands ∧
      ∀ hand ∈ f.hands3d, hand.length = 21) ∧
    (createBinaryData [sampleFrame]
       = some (sessionLayout [sampleFrame], cellsSize (sessionLayout [sampleFrame])) ∧
     sessionLayout [sampleFrame]
       = BinCell.u32 ([sampleFrame] : List FrameData).length true
           :: ([sampleFrame] : List FrameData).flatMap frameLayout ∧
     (∀ f ∈ [sampleFrame],
       frameLayout f
         = [BinCell.f64 f.timestamp true, BinCell.u32 f.frameNumber true]
             ++ poseCells f ++ handCells f ∧
       cellsSize (poseCells f) = 204) ∧
     (∀ c ∈ sessionLayout [sampleFrame], c.isLittleEndian = true)) :=
  ⟨by decide, by decide, by decide,
   createBinaryData_layout [sampleFrame] (by decide) (by decide) (by decide)⟩

end Isaac
